import Mathlib

/-!
Verification of the Pocky task manager's core state logic.

The definitions below are a shallow embedding of the client-side data model
and its mutation handlers (src/app/page.tsx), the schedule picker
(SchedulePicker.tsx), the project-view sorter (ProjectView.tsx), the task
creation modal (TaskModal.tsx) and the localStorage persistence adapter.

Modelling conventions:
 - ISO-8601 timestamp strings are modelled by their epoch value as a `Nat`
   (`new Date(s).getTime()`): every comparison of dates in the source goes
   through `getTime`, which is injective on the ISO strings the app produces,
   so nothing is lost by working with the epoch values directly.
 - `crypto.randomUUID()` and `new Date()` are modelled by passing the fresh
   id / current time to the handler as an explicit argument.
 - JavaScript's stable `Array.prototype.sort(cmp)` is modelled by Mathlib's
   stable `List.insertionSort` on the relation `cmp a b ≤ 0`.
-/

namespace Pocky

/-- Task status union from src/types/database.ts. -/
inductive Status where
  | inbox
  | active
  | completed
  | cancelled
deriving DecidableEq

/-- Task schedule union from src/types/database.ts (the non-null values). -/
inductive Schedule where
  | anytime
  | today
  | this_week
  | next_week
  | evening
  | someday
deriving DecidableEq

/-- Project status union from src/types/database.ts. -/
inductive ProjectStatus where
  | active
  | completed
  | someday
deriving DecidableEq

/-- The five schedule buckets the schedule picker and the sidebar offer
(`type Schedule` in SchedulePicker.tsx / Sidebar.tsx, minus the null case). -/
inductive Bucket where
  | today
  | this_week
  | next_week
  | anytime
  | someday
deriving DecidableEq

/-- A picker bucket as a task schedule value. -/
def Bucket.toSchedule : Bucket → Schedule
  | .today => .today
  | .this_week => .this_week
  | .next_week => .next_week
  | .anytime => .anytime
  | .someday => .someday

/-- Task row from src/types/database.ts. Date strings carry epoch values. -/
structure Task where
  id : String
  user_id : String
  project_id : Option String
  heading_id : Option String
  title : String
  emoji : Option String
  notes : Option String
  status : Status
  schedule : Option Schedule
  scheduled_date : Option Nat
  deadline : Option Nat
  position : Nat
  created_at : Nat
  updated_at : Nat
  completed_at : Option Nat
deriving DecidableEq

/-- Project row from src/types/database.ts. -/
structure Project where
  id : String
  user_id : String
  area_id : Option String
  name : String
  emoji : Option String
  notes : Option String
  position : Nat
  status : ProjectStatus
  deadline : Option Nat
  created_at : Nat
  updated_at : Nat
  completed_at : Option Nat
deriving DecidableEq

/-- Area row from src/types/database.ts. -/
structure Area where
  id : String
  user_id : String
  name : String
  position : Nat
  created_at : Nat
  updated_at : Nat
deriving DecidableEq

/-- Heading row from src/types/database.ts. -/
structure Heading where
  id : String
  project_id : String
  name : String
  position : Nat
  created_at : Nat
deriving DecidableEq

/-- The `View` union exported by Sidebar.tsx: the five buckets, the logbook,
or a `project:<id>` string. -/
inductive View where
  | today
  | this_week
  | next_week
  | anytime
  | someday
  | logbook
  | project (projectId : String)
deriving DecidableEq

/-- The four record collections plus the active view held in `Home`'s React
state (page.tsx). -/
structure AppState where
  activeView : View
  tasks : List Task
  projects : List Project
  areas : List Area
  headings : List Heading
deriving DecidableEq

/-- page.tsx `handleToggleTask`: set the status and completed_at of the task
with the given id; `now` is the `new Date().toISOString()` taken when
completing. -/
def handleToggleTask (now : Nat) (taskId : String) (completed : Bool)
    (tasks : List Task) : List Task :=
  tasks.map fun task =>
    if task.id = taskId then
      { task with
          status := if completed then Status.completed else Status.active
          completed_at := if completed then some now else none }
    else task

/-- page.tsx `handleScheduleTask`: set the schedule of the task with the
given id, defaulting a null argument to `anytime` (`schedule || 'anytime'`).
The handler touches no other field (in particular not `updated_at`). -/
def handleScheduleTask (taskId : String) (schedule : Option Bucket)
    (tasks : List Task) : List Task :=
  tasks.map fun task =>
    if task.id = taskId then
      { task with schedule := some (schedule.getD Bucket.anytime).toSchedule }
    else task

/-- page.tsx `handleMoveTaskToProject`: reassign the task's project, clear
its heading and stamp `updated_at`. -/
def handleMoveTaskToProject (now : Nat) (taskId projectId : String)
    (tasks : List Task) : List Task :=
  tasks.map fun task =>
    if task.id = taskId then
      { task with project_id := some projectId, heading_id := none, updated_at := now }
    else task

/-- page.tsx `handleMoveTaskToSchedule`: reassign the task's schedule bucket
and stamp `updated_at` (the heading is left as it is). -/
def handleMoveTaskToSchedule (now : Nat) (taskId : String) (schedule : Bucket)
    (tasks : List Task) : List Task :=
  tasks.map fun task =>
    if task.id = taskId then
      { task with schedule := some schedule.toSchedule, updated_at := now }
    else task

/-- page.tsx `handleSnoozeAllToNextWeek`: move every non-completed
`this_week` task to `next_week`, stamping `updated_at`. -/
def handleSnoozeAllToNextWeek (now : Nat) (tasks : List Task) : List Task :=
  tasks.map fun task =>
    if task.schedule = some Schedule.this_week ∧ task.status ≠ Status.completed then
      { task with schedule := some Schedule.next_week, updated_at := now }
    else task

/-- page.tsx `handleUpdateTaskEmoji`: set the task's emoji and stamp
`updated_at`. -/
def handleUpdateTaskEmoji (now : Nat) (taskId : String) (emoji : String)
    (tasks : List Task) : List Task :=
  tasks.map fun task =>
    if task.id = taskId then
      { task with emoji := some emoji, updated_at := now }
    else task

/-- page.tsx `handleDeleteTask`: drop the task with the given id; the other
three collections are not touched. -/
def handleDeleteTask (taskId : String) (s : AppState) : AppState :=
  { s with tasks := s.tasks.filter fun t => t.id ≠ taskId }

/-- page.tsx `handleDeleteProject`: drop the project, every task and every
heading referencing it, and fall back to the `today` view when the deleted
project was being viewed. -/
def handleDeleteProject (projectId : String) (s : AppState) : AppState :=
  { s with
      projects := s.projects.filter fun p => p.id ≠ projectId
      tasks := s.tasks.filter fun t => t.project_id ≠ some projectId
      headings := s.headings.filter fun h => h.project_id ≠ projectId
      activeView :=
        if s.activeView = View.project projectId then View.today else s.activeView }

/-- A concrete task used to instantiate theorems (all handler theorems are
proved for arbitrary tasks; this one only feeds witnesses and
counterexamples). -/
def sampleTask : Task where
  id := "t1"
  user_id := "demo"
  project_id := some ("p1")
  heading_id := some ("h1")
  title := "Buy milk"
  emoji := none
  notes := none
  status := Status.active
  schedule := some Schedule.today
  scheduled_date := none
  deadline := some 5
  position := 0
  created_at := 50
  updated_at := 100
  completed_at := none

/-- A concrete app state for witnesses. -/
def sampleState : AppState where
  activeView := View.project ("p1")
  tasks := [sampleTask]
  projects := []
  areas := []
  headings := []

/-- C1: deleting project P removes the project record, every task whose
project_id is P and every heading whose project_id is P, leaves the other
records and the areas untouched, and resets the active view to `today`
exactly when it was the view of P. -/
theorem handleDeleteProject_cascade (s : AppState) (P : String) :
    (handleDeleteProject P s).areas = s.areas ∧
    (∀ p : Project, p ∈ (handleDeleteProject P s).projects ↔ p ∈ s.projects ∧ p.id ≠ P) ∧
    (∀ t : Task, t ∈ (handleDeleteProject P s).tasks ↔ t ∈ s.tasks ∧ t.project_id ≠ some P) ∧
    (∀ h : Heading, h ∈ (handleDeleteProject P s).headings ↔ h ∈ s.headings ∧ h.project_id ≠ P) ∧
    (handleDeleteProject P s).activeView =
      (if s.activeView = View.project P then View.today else s.activeView) := by
  refine ⟨rfl, ?_, ?_, ?_, rfl⟩ <;> intro x <;>
    simp [handleDeleteProject, List.mem_filter]

/-- C10: deleting task T removes exactly the tasks whose id is T, keeps every
other task (in order, since the remaining list is a sublist of the original)
and leaves projects, areas and headings untouched. -/
theorem handleDeleteTask_frame (s : AppState) (T : String) :
    (handleDeleteTask T s).projects = s.projects ∧
    (handleDeleteTask T s).areas = s.areas ∧
    (handleDeleteTask T s).headings = s.headings ∧
    List.Sublist (handleDeleteTask T s).tasks s.tasks ∧
    (∀ t : Task, t ∈ (handleDeleteTask T s).tasks ↔ t ∈ s.tasks ∧ t.id ≠ T) := by
  refine ⟨rfl, rfl, rfl, List.filter_sublist _, ?_⟩
  intro t; simp [handleDeleteTask, List.mem_filter]

/-- C2 counterexample: it is not the case that moving a task to a schedule
bucket clears its heading_id. Moving `sampleTask` (heading "h1") to the
`today` bucket keeps heading "h1". -/
theorem moveTaskToSchedule_keeps_heading_cex :
    ¬ (∀ (now : Nat) (taskId : String) (b : Bucket) (tasks : List Task),
        ∀ t ∈ handleMoveTaskToSchedule now taskId b tasks,
          t.id = taskId → t.heading_id = none) := by
  intro hcl
  have h := hcl 999 ("t1") Bucket.today [sampleTask]
    { sampleTask with schedule := some Schedule.today, updated_at := 999 }
    (by decide) (by decide)
  exact absurd h (by decide)

/-- C2 amended: moving a task to a schedule bucket sets its schedule and
`updated_at` and changes nothing else (in particular the heading stays);
moving it to a project sets its project, clears its heading and stamps
`updated_at`, changing nothing else. Tasks with a different id are kept
as they are by both moves. -/
theorem moveTask_effects (now : Nat) (taskId : String) (b : Bucket)
    (pid : String) (tasks : List Task) (t : Task) (ht : t ∈ tasks) :
    (t.id = taskId →
      { t with schedule := some b.toSchedule, updated_at := now } ∈
          handleMoveTaskToSchedule now taskId b tasks ∧
      { t with project_id := some pid, heading_id := none, updated_at := now } ∈
          handleMoveTaskToProject now taskId pid tasks) ∧
    (t.id ≠ taskId →
      t ∈ handleMoveTaskToSchedule now taskId b tasks ∧
      t ∈ handleMoveTaskToProject now taskId pid tasks) := by
  constructor
  · intro hid
    constructor <;>
      [exact List.mem_map.mpr ⟨t, ht, by simp [hid]⟩;
       exact List.mem_map.mpr ⟨t, ht, by simp [hid]⟩]
  · intro hid
    constructor <;>
      [exact List.mem_map.mpr ⟨t, ht, by simp [hid]⟩;
       exact List.mem_map.mpr ⟨t, ht, by simp [hid]⟩]

/-- Witness for the amended C2 theorem at `sampleTask`. -/
theorem moveTask_effects_witness :
    { sampleTask with schedule := some Schedule.today, updated_at := 999 } ∈
        handleMoveTaskToSchedule 999 ("t1") Bucket.today [sampleTask] ∧
    { sampleTask with project_id := some ("p2"), heading_id := none, updated_at := 999 } ∈
        handleMoveTaskToProject 999 ("t1") ("p2") [sampleTask] :=
  (moveTask_effects 999 ("t1") Bucket.today ("p2") [sampleTask] sampleTask
    (by decide)).1 (by decide)

/-- C9: the schedule handler called with `null` defaults to `anytime`
(`schedule || 'anytime'`), so its target task never ends up with a null
schedule. -/
theorem handleScheduleTask_clear_defaults_anytime (taskId : String)
    (b : Option Bucket) (tasks : List Task) (t : Task)
    (ht : t ∈ handleScheduleTask taskId b tasks) (hid : t.id = taskId) :
    t.schedule = some (b.getD Bucket.anytime).toSchedule ∧ t.schedule ≠ none := by
  obtain ⟨t0, _, rfl⟩ := List.mem_map.mp ht
  by_cases h0 : t0.id = taskId
  · simp [h0]
  · simp [h0] at hid

/-- Witness for C9: clearing the schedule of `sampleTask` through the picker
leaves it scheduled `anytime`. -/
theorem handleScheduleTask_clear_witness :
    ({ sampleTask with schedule := some Schedule.anytime } : Task).schedule =
        some ((none : Option Bucket).getD Bucket.anytime).toSchedule ∧
    ({ sampleTask with schedule := some Schedule.anytime } : Task).schedule ≠ none :=
  handleScheduleTask_clear_defaults_anytime ("t1") none [sampleTask]
    { sampleTask with schedule := some Schedule.anytime } (by decide) (by decide)

/-- The completion invariant of the data model: a task is `completed` exactly
when it carries a completion timestamp. -/
def completedIff (t : Task) : Prop :=
  t.status = Status.completed ↔ t.completed_at ≠ none

instance (t : Task) : Decidable (completedIff t) :=
  inferInstanceAs (Decidable (_ ↔ _))

/-- A sequence of `handleToggleTask` calls: each op is (time, task id,
completed flag). -/
def applyToggles (ops : List (Nat × String × Bool)) (tasks : List Task) : List Task :=
  ops.foldl (fun ts op => handleToggleTask op.1 op.2.1 op.2.2 ts) tasks

/-- One toggle preserves the completion invariant for every task. -/
theorem toggle_preserves_completedIff (now : Nat) (taskId : String) (c : Bool)
    {tasks : List Task} (h : ∀ t ∈ tasks, completedIff t) :
    ∀ t ∈ handleToggleTask now taskId c tasks, completedIff t := by
  intro t ht
  obtain ⟨t0, ht0, rfl⟩ := List.mem_map.mp ht
  by_cases h0 : t0.id = taskId
  · cases c <;> simp [completedIff, h0, handleToggleTask]
  · simpa [h0] using h t0 ht0

/-- C3: after any sequence of toggles on a collection satisfying the
completion invariant, every task still has `status = completed` iff
`completed_at` is non-null; moreover completing a task stamps
`completed_at = now` and un-completing clears it to null. -/
theorem applyToggles_completedIff (ops : List (Nat × String × Bool))
    (tasks : List Task) (h : ∀ t ∈ tasks, completedIff t) :
    (∀ t ∈ applyToggles ops tasks, completedIff t) ∧
    (∀ (now : Nat) (taskId : String) (t : Task),
        t ∈ handleToggleTask now taskId true tasks → t.id = taskId →
          t.status = Status.completed ∧ t.completed_at = some now) ∧
    (∀ (now : Nat) (taskId : String) (t : Task),
        t ∈ handleToggleTask now taskId false tasks → t.id = taskId →
          t.status = Status.active ∧ t.completed_at = none) := by
  refine ⟨?_, ?_, ?_⟩
  · induction ops generalizing tasks with
    | nil => exact h
    | cons op rest ih => exact ih _ (toggle_preserves_completedIff op.1 op.2.1 op.2.2 h)
  · intro now taskId t ht hid
    obtain ⟨t0, ht0, rfl⟩ := List.mem_map.mp ht
    by_cases h0 : t0.id = taskId
    · simp [h0]
    · simp [h0] at hid
  · intro now taskId t ht hid
    obtain ⟨t0, ht0, rfl⟩ := List.mem_map.mp ht
    by_cases h0 : t0.id = taskId
    · simp [h0]
    · simp [h0] at hid

/-- Witness for C3: toggling `sampleTask` complete at time 5 yields a task
satisfying the completion invariant. -/
theorem applyToggles_completedIff_witness :
    completedIff { sampleTask with status := Status.completed, completed_at := some 5 } :=
  (applyToggles_completedIff [(5, ("t1"), true)] [sampleTask] (by decide)).1
    { sampleTask with status := Status.completed, completed_at := some 5 } (by decide)

/-- C4 counterexample: toggling completion does not refresh `updated_at`
(and neither does the schedule-picker handler): toggling `sampleTask`
(updated_at 100) at time 999 leaves `updated_at` at 100. -/
theorem updatedAt_refresh_cex :
    ¬ (∀ (now : Nat) (taskId : String) (c : Bool) (b : Option Bucket)
        (tasks : List Task),
        (∀ t ∈ handleToggleTask now taskId c tasks,
            t.id = taskId → t.updated_at = now) ∧
        (∀ t ∈ handleScheduleTask taskId b tasks,
            t.id = taskId → t.updated_at = now)) := by
  intro hcl
  have h := (hcl 999 ("t1") true none [sampleTask]).1
    { sampleTask with status := Status.completed, completed_at := some 999 }
    (by decide) (by decide)
  exact absurd h (by decide)

/-- C4 amended: the toggle and schedule-picker handlers leave every task's
`updated_at` unchanged, while the move-to-schedule, move-to-project,
emoji-update and snooze-all handlers stamp `updated_at = now` on the tasks
they change. -/
theorem updatedAt_refresh_amended (now : Nat) (taskId : String) (c : Bool)
    (b : Option Bucket) (b2 : Bucket) (pid em : String) (tasks : List Task) :
    (handleToggleTask now taskId c tasks).map Task.updated_at =
        tasks.map Task.updated_at ∧
    (handleScheduleTask taskId b tasks).map Task.updated_at =
        tasks.map Task.updated_at ∧
    (∀ t ∈ handleMoveTaskToSchedule now taskId b2 tasks,
        t.id = taskId → t.updated_at = now) ∧
    (∀ t ∈ handleMoveTaskToProject now taskId pid tasks,
        t.id = taskId → t.updated_at = now) ∧
    (∀ t ∈ handleUpdateTaskEmoji now taskId em tasks,
        t.id = taskId → t.updated_at = now) ∧
    (∀ t0 ∈ tasks, t0.schedule = some Schedule.this_week →
        t0.status ≠ Status.completed →
        { t0 with schedule := some Schedule.next_week, updated_at := now } ∈
          handleSnoozeAllToNextWeek now tasks) := by
  refine ⟨?_, ?_, ?_, ?_, ?_, ?_⟩
  · rw [handleToggleTask, List.map_map]
    refine List.map_congr_left fun t ht => ?_
    by_cases h0 : t.id = taskId <;> simp [h0]
  · rw [handleScheduleTask, List.map_map]
    refine List.map_congr_left fun t ht => ?_
    by_cases h0 : t.id = taskId <;> simp [h0]
  · intro t ht hid
    obtain ⟨t0, ht0, rfl⟩ := List.mem_map.mp ht
    by_cases h0 : t0.id = taskId
    · simp [h0]
    · simp [h0] at hid
  · intro t ht hid
    obtain ⟨t0, ht0, rfl⟩ := List.mem_map.mp ht
    by_cases h0 : t0.id = taskId
    · simp [h0]
    · simp [h0] at hid
  · intro t ht hid
    obtain ⟨t0, ht0, rfl⟩ := List.mem_map.mp ht
    by_cases h0 : t0.id = taskId
    · simp [h0]
    · simp [h0] at hid
  · intro t0 ht0 hs hst
    exact List.mem_map.mpr ⟨t0, ht0, by simp [hs, hst]⟩

/-- ProjectView.tsx `sortTasks`, case `due_date`: the comparator passed to
`Array.prototype.sort` (null deadlines compare after non-null ones, non-null
ones by their date value). -/
def cmpDueDate (a b : Task) : Int :=
  match a.deadline, b.deadline with
  | none, none => 0
  | none, some _ => 1
  | some _, none => -1
  | some x, some y => (x : Int) - (y : Int)

/-- The order induced by `cmpDueDate`: a sorts no later than b. -/
def dueDateLe (a b : Task) : Prop := cmpDueDate a b ≤ 0

instance : DecidableRel dueDateLe :=
  fun a b => inferInstanceAs (Decidable (_ ≤ _))

instance : IsTotal Task dueDateLe where
  total a b := by
    unfold dueDateLe cmpDueDate
    rcases a.deadline with _ | x <;> rcases b.deadline with _ | y <;> simp <;> omega

instance : IsTrans Task dueDateLe where
  trans a b c hab hbc := by
    unfold dueDateLe cmpDueDate at hab hbc ⊢
    cases ha : a.deadline <;> cases hb : b.deadline <;> cases hc : c.deadline <;>
      simp_all <;> omega

/-- ProjectView.tsx `sortTasks` in `due_date` mode: the stable
`Array.prototype.sort` on `cmpDueDate`. -/
def sortTasksDueDate (tasksToSort : List Task) : List Task :=
  tasksToSort.insertionSort dueDateLe

/-- Second concrete task, sharing `sampleTask`'s deadline. -/
def sampleTaskB : Task := { sampleTask with id := "t2", title := "Call mum" }

/-- C5 counterexample: due-date sorting is not strictly ascending on the
non-null deadlines: two distinct tasks with the same deadline stay adjacent
with equal deadlines. -/
theorem sortTasksDueDate_strict_cex :
    ¬ (∀ ts : List Task,
        List.Pairwise (fun a b => a.deadline = none → b.deadline = none)
          (sortTasksDueDate ts) ∧
        List.Chain' (· < ·) ((sortTasksDueDate ts).filterMap Task.deadline)) := by
  intro hcl
  have h := (hcl [sampleTask, sampleTaskB]).2
  have e : (sortTasksDueDate [sampleTask, sampleTaskB]).filterMap Task.deadline
      = [5, 5] := by decide
  rw [e] at h
  simp [List.chain'_cons] at h

/-- C5 amended: due-date sorting permutes the input, places every task with
a null deadline after every task with a non-null one, and lists the non-null
deadlines in ascending (non-decreasing) order. -/
theorem sortTasksDueDate_sorted (ts : List Task) :
    List.Perm (sortTasksDueDate ts) ts ∧
    List.Pairwise (fun a b => a.deadline = none → b.deadline = none)
      (sortTasksDueDate ts) ∧
    List.Chain' (· ≤ ·) ((sortTasksDueDate ts).filterMap Task.deadline) := by
  have hs : List.Pairwise dueDateLe (sortTasksDueDate ts) :=
    List.sorted_insertionSort dueDateLe ts
  refine ⟨List.perm_insertionSort dueDateLe ts, ?_, ?_⟩
  · refine hs.imp ?_
    intro a b hab ha
    unfold dueDateLe cmpDueDate at hab
    rcases hb : b.deadline with _ | y
    · rfl
    · rw [ha, hb] at hab
      simp at hab
  · refine List.Pairwise.chain' ?_
    rw [List.pairwise_filterMap]
    refine hs.imp ?_
    intro a b hab x hx y hy
    rw [Option.mem_def] at hx hy
    unfold dueDateLe cmpDueDate at hab
    rw [hx, hy] at hab
    simp at hab
    omega

/-- Key used to order the logbook: `completed_at || updated_at`
(page.tsx `filteredTasks` sort). -/
def logKey (t : Task) : Nat := t.completed_at.getD t.updated_at

/-- The order induced by the logbook comparator
`new Date(bDate).getTime() - new Date(aDate).getTime()`: descending keys. -/
def logbookLe (a b : Task) : Prop := logKey b ≤ logKey a

instance : DecidableRel logbookLe :=
  fun a b => inferInstanceAs (Decidable (_ ≤ _))

instance : IsTotal Task logbookLe where
  total a b := le_total (logKey b) (logKey a)

instance : IsTrans Task logbookLe where
  trans _ _ _ hab hbc := le_trans hbc hab

/-- page.tsx `filteredTasks`: the predicate of the `tasks.filter` call for
the active view. -/
def viewFilter (activeView : View) (task : Task) : Bool :=
  match activeView with
  | View.project pid => task.project_id = some pid
  | View.today => task.schedule = some Schedule.today ∧ task.status ≠ Status.completed
  | View.this_week => task.schedule = some Schedule.this_week ∧ task.status ≠ Status.completed
  | View.next_week => task.schedule = some Schedule.next_week ∧ task.status ≠ Status.completed
  | View.anytime => task.schedule = some Schedule.anytime ∧ task.status ≠ Status.completed
  | View.someday => task.schedule = some Schedule.someday ∧ task.status ≠ Status.completed
  | View.logbook => task.status = Status.completed

/-- page.tsx `filteredTasks`: filter by the active view, then sort.  The
comparator returns 0 unless the view is the logbook, and a stable sort under
an all-ties comparator is the identity, so only the logbook branch sorts. -/
def filteredTasks (activeView : View) (tasks : List Task) : List Task :=
  if activeView = View.logbook then
    (tasks.filter (viewFilter activeView)).insertionSort logbookLe
  else
    tasks.filter (viewFilter activeView)

/-- C6: the logbook holds exactly the completed tasks (as a permutation of
the completed-status filter of the collection, so id-for-id with
multiplicity), ordered by descending `completed_at`-else-`updated_at` key. -/
theorem filteredTasks_logbook (tasks : List Task) :
    (∀ t : Task, t ∈ filteredTasks View.logbook tasks ↔
        t ∈ tasks ∧ t.status = Status.completed) ∧
    List.Perm (filteredTasks View.logbook tasks)
      (tasks.filter fun t => t.status = Status.completed) ∧
    List.Pairwise (fun a b => logKey b ≤ logKey a)
      (filteredTasks View.logbook tasks) := by
  have hperm := List.perm_insertionSort logbookLe (tasks.filter (viewFilter View.logbook))
  have heq : filteredTasks View.logbook tasks =
      (tasks.filter (viewFilter View.logbook)).insertionSort logbookLe := by
    simp [filteredTasks]
  refine ⟨?_, ?_, ?_⟩
  · intro t
    rw [heq, hperm.mem_iff, List.mem_filter]
    simp [viewFilter]
  · rw [heq]
    exact hperm
  · rw [heq]
    exact List.sorted_insertionSort logbookLe _

/-- The payload TaskModal.tsx submits: trimmed title, trimmed notes, and the
deadline (`deadline || null`, none when the field is empty). -/
structure TaskModalData where
  title : String
  notes : String
  deadline : Option Nat
deriving DecidableEq

/-- page.tsx `handleAddTask`'s schedule choice for a new task: the active
bucket view, else `anytime`. -/
def viewSchedule (activeView : View) : Schedule :=
  match activeView with
  | View.today => Schedule.today
  | View.this_week => Schedule.this_week
  | View.next_week => Schedule.next_week
  | View.anytime => Schedule.anytime
  | View.someday => Schedule.someday
  | _ => Schedule.anytime

/-- page.tsx `handleAddTask`: append a new task built from the modal data and
the ambient view.  `ge` stands for `generateEmoji` (src/utils/emoji, an
external lookup the handler only calls), `newId` for `crypto.randomUUID()`
and `now` for `new Date().toISOString()`. -/
def handleAddTask (ge : String → Option String) (newId : String) (now : Nat)
    (activeView : View) (addingTaskHeadingId : Option String)
    (taskData : TaskModalData) (tasks : List Task) : List Task :=
  let projectId : Option String :=
    match activeView with
    | View.project pid => some pid
    | _ => none
  let newTask : Task :=
    { id := newId
      user_id := "demo"
      project_id := projectId
      heading_id := addingTaskHeadingId
      title := taskData.title
      emoji := ge taskData.title
      notes := if taskData.notes = "" then none else some taskData.notes
      status := Status.active
      schedule := some (viewSchedule activeView)
      scheduled_date := none
      deadline := taskData.deadline
      position := tasks.length
      created_at := now
      updated_at := now
      completed_at := none }
  tasks ++ [newTask]

/-- TaskModal.tsx `handleSubmit` composed with page.tsx `handleAddTask`: the
modal fires `onSubmit` only when the trimmed title is nonempty
(`if (title.trim())`), passing the trimmed title and notes; otherwise
nothing happens. -/
def submitNewTask (ge : String → Option String) (newId : String) (now : Nat)
    (addingTaskHeadingId : Option String) (title notes : String)
    (deadline : Option Nat) (s : AppState) : AppState :=
  if title.trim = "" then s
  else
    { s with
        tasks := handleAddTask ge newId now s.activeView addingTaskHeadingId
          { title := title.trim, notes := notes.trim, deadline := deadline } s.tasks }

/-- C7: task creation through the modal is total and atomic: a blank
(empty or whitespace-only) title is a no-op leaving the whole state
unchanged, and any other title appends exactly one fully-formed task and
touches nothing else. -/
theorem submitNewTask_total (ge : String → Option String) (newId : String)
    (now : Nat) (hid : Option String) (title notes : String)
    (deadline : Option Nat) (s : AppState) :
    (title.trim = "" → submitNewTask ge newId now hid title notes deadline s = s) ∧
    (title.trim ≠ "" →
      (submitNewTask ge newId now hid title notes deadline s).projects = s.projects ∧
      (submitNewTask ge newId now hid title notes deadline s).areas = s.areas ∧
      (submitNewTask ge newId now hid title notes deadline s).headings = s.headings ∧
      (submitNewTask ge newId now hid title notes deadline s).activeView = s.activeView ∧
      ∃ newTask : Task,
        (submitNewTask ge newId now hid title notes deadline s).tasks =
            s.tasks ++ [newTask] ∧
        newTask.id = newId ∧
        newTask.title = title.trim ∧
        newTask.status = Status.active ∧
        newTask.schedule = some (viewSchedule s.activeView) ∧
        newTask.position = s.tasks.length ∧
        newTask.created_at = now ∧
        newTask.updated_at = now ∧
        newTask.completed_at = none ∧
        newTask.deadline = deadline) := by
  constructor
  · intro h
    simp [submitNewTask, h]
  · intro h
    rw [submitNewTask, if_neg h]
    exact ⟨rfl, rfl, rfl, rfl, _, rfl, rfl, rfl, rfl, rfl, rfl, rfl, rfl, rfl, rfl⟩

/-- The `Json` value type declared in src/types/database.ts.  The storage
slots hold `JSON.stringify` of such values; since `JSON.parse` inverts
`JSON.stringify` on them, the string layer is modelled by the tree itself. -/
inductive Json where
  | str (s : String)
  | num (n : Int)
  | jbool (b : Bool)
  | null
  | arr (elems : List Json)
  | obj (fields : List (String × Json))

/-- First field of an object with the given key (JSON object member access). -/
def lookupField : List (String × Json) → String → Option Json
  | [], _ => none
  | (k, v) :: rest, key => if k = key then some v else lookupField rest key

/-- Member access on a `Json` value. -/
def Json.getField : Json → String → Option Json
  | .obj fields, key => lookupField fields key
  | _, _ => none

/-- A nullable string field as JSON. -/
def encodeOptStr : Option String → Json
  | none => .null
  | some s => .str s

/-- Read back a nullable string field. -/
def decodeOptStr : Json → Option (Option String)
  | .null => some none
  | .str s => some (some s)
  | _ => none

/-- A nullable date field as JSON (dates carry their epoch value). -/
def encodeOptNat : Option Nat → Json
  | none => .null
  | some n => .num n

/-- Read back a nullable date field. -/
def decodeOptNat : Json → Option (Option Nat)
  | .null => some none
  | .num n => some (some n.toNat)
  | _ => none

/-- Read a mandatory string field. -/
def asStr : Json → Option String
  | .str s => some s
  | _ => none

/-- Read a mandatory number field. -/
def asNat : Json → Option Nat
  | .num n => some n.toNat
  | _ => none

/-- Task status as its JSON string. -/
def statusToString : Status → String
  | .inbox => "inbox"
  | .active => "active"
  | .completed => "completed"
  | .cancelled => "cancelled"

/-- Task status from its JSON string. -/
def statusOfString (s : String) : Option Status :=
  if s = "inbox" then some Status.inbox
  else if s = "active" then some Status.active
  else if s = "completed" then some Status.completed
  else if s = "cancelled" then some Status.cancelled
  else none

/-- Schedule value as its JSON string. -/
def scheduleToString : Schedule → String
  | .anytime => "anytime"
  | .today => "today"
  | .this_week => "this_week"
  | .next_week => "next_week"
  | .evening => "evening"
  | .someday => "someday"

/-- Schedule value from its JSON string. -/
def scheduleOfString (s : String) : Option Schedule :=
  if s = "anytime" then some Schedule.anytime
  else if s = "today" then some Schedule.today
  else if s = "this_week" then some Schedule.this_week
  else if s = "next_week" then some Schedule.next_week
  else if s = "evening" then some Schedule.evening
  else if s = "someday" then some Schedule.someday
  else none

/-- Project status as its JSON string. -/
def projectStatusToString : ProjectStatus → String
  | .active => "active"
  | .completed => "completed"
  | .someday => "someday"

/-- Project status from its JSON string. -/
def projectStatusOfString (s : String) : Option ProjectStatus :=
  if s = "active" then some ProjectStatus.active
  else if s = "completed" then some ProjectStatus.completed
  else if s = "someday" then some ProjectStatus.someday
  else none

/-- A nullable schedule field as JSON. -/
def encodeOptSchedule : Option Schedule → Json
  | none => .null
  | some sc => .str (scheduleToString sc)

/-- Read back a nullable schedule field. -/
def decodeOptSchedule : Json → Option (Option Schedule)
  | .null => some none
  | .str s => (scheduleOfString s).map some
  | _ => none

theorem decodeOptStr_encode (o : Option String) :
    decodeOptStr (encodeOptStr o) = some o := by
  cases o <;> rfl

theorem decodeOptNat_encode (o : Option Nat) :
    decodeOptNat (encodeOptNat o) = some o := by
  cases o <;> simp [encodeOptNat, decodeOptNat]

theorem statusOfString_toString (st : Status) :
    statusOfString (statusToString st) = some st := by
  cases st <;> rfl

theorem scheduleOfString_toString (sc : Schedule) :
    scheduleOfString (scheduleToString sc) = some sc := by
  cases sc <;> rfl

theorem projectStatusOfString_toString (st : ProjectStatus) :
    projectStatusOfString (projectStatusToString st) = some st := by
  cases st <;> rfl

theorem decodeOptSchedule_encode (o : Option Schedule) :
    decodeOptSchedule (encodeOptSchedule o) = some o := by
  cases o <;> simp [encodeOptSchedule, decodeOptSchedule, scheduleOfString_toString]

/-- A task row as the JSON object `JSON.stringify` writes for it. -/
def taskToJson (t : Task) : Json :=
  .obj [("id", .str t.id), ("user_id", .str t.user_id),
    ("project_id", encodeOptStr t.project_id),
    ("heading_id", encodeOptStr t.heading_id),
    ("title", .str t.title), ("emoji", encodeOptStr t.emoji),
    ("notes", encodeOptStr t.notes),
    ("status", .str (statusToString t.status)),
    ("schedule", encodeOptSchedule t.schedule),
    ("scheduled_date", encodeOptNat t.scheduled_date),
    ("deadline", encodeOptNat t.deadline),
    ("position", .num t.position),
    ("created_at", .num t.created_at),
    ("updated_at", .num t.updated_at),
    ("completed_at", encodeOptNat t.completed_at)]

/-- A task row read back from its JSON object (`JSON.parse`). -/
def taskOfJson (j : Json) : Option Task := do
  let id ← (j.getField ("id")).bind asStr
  let user_id ← (j.getField ("user_id")).bind asStr
  let project_id ← (j.getField ("project_id")).bind decodeOptStr
  let heading_id ← (j.getField ("heading_id")).bind decodeOptStr
  let title ← (j.getField ("title")).bind asStr
  let emoji ← (j.getField ("emoji")).bind decodeOptStr
  let notes ← (j.getField ("notes")).bind decodeOptStr
  let status ← (j.getField ("status")).bind (fun v => (asStr v).bind statusOfString)
  let schedule ← (j.getField ("schedule")).bind decodeOptSchedule
  let scheduled_date ← (j.getField ("scheduled_date")).bind decodeOptNat
  let deadline ← (j.getField ("deadline")).bind decodeOptNat
  let position ← (j.getField ("position")).bind asNat
  let created_at ← (j.getField ("created_at")).bind asNat
  let updated_at ← (j.getField ("updated_at")).bind asNat
  let completed_at ← (j.getField ("completed_at")).bind decodeOptNat
  pure { id, user_id, project_id, heading_id, title, emoji, notes, status,
         schedule, scheduled_date, deadline, position, created_at, updated_at,
         completed_at }

/-- A project row as its JSON object. -/
def projectToJson (p : Project) : Json :=
  .obj [("id", .str p.id), ("user_id", .str p.user_id),
    ("area_id", encodeOptStr p.area_id),
    ("name", .str p.name), ("emoji", encodeOptStr p.emoji),
    ("notes", encodeOptStr p.notes),
    ("position", .num p.position),
    ("status", .str (projectStatusToString p.status)),
    ("deadline", encodeOptNat p.deadline),
    ("created_at", .num p.created_at),
    ("updated_at", .num p.updated_at),
    ("completed_at", encodeOptNat p.completed_at)]

/-- A project row read back from its JSON object. -/
def projectOfJson (j : Json) : Option Project := do
  let id ← (j.getField ("id")).bind asStr
  let user_id ← (j.getField ("user_id")).bind asStr
  let area_id ← (j.getField ("area_id")).bind decodeOptStr
  let name ← (j.getField ("name")).bind asStr
  let emoji ← (j.getField ("emoji")).bind decodeOptStr
  let notes ← (j.getField ("notes")).bind decodeOptStr
  let position ← (j.getField ("position")).bind asNat
  let status ← (j.getField ("status")).bind (fun v => (asStr v).bind projectStatusOfString)
  let deadline ← (j.getField ("deadline")).bind decodeOptNat
  let created_at ← (j.getField ("created_at")).bind asNat
  let updated_at ← (j.getField ("updated_at")).bind asNat
  let completed_at ← (j.getField ("completed_at")).bind decodeOptNat
  pure { id, user_id, area_id, name, emoji, notes, position, status, deadline,
         created_at, updated_at, completed_at }

/-- An area row as its JSON object. -/
def areaToJson (a : Area) : Json :=
  .obj [("id", .str a.id), ("user_id", .str a.user_id),
    ("name", .str a.name), ("position", .num a.position),
    ("created_at", .num a.created_at), ("updated_at", .num a.updated_at)]

/-- An area row read back from its JSON object. -/
def areaOfJson (j : Json) : Option Area := do
  let id ← (j.getField ("id")).bind asStr
  let user_id ← (j.getField ("user_id")).bind asStr
  let name ← (j.getField ("name")).bind asStr
  let position ← (j.getField ("position")).bind asNat
  let created_at ← (j.getField ("created_at")).bind asNat
  let updated_at ← (j.getField ("updated_at")).bind asNat
  pure { id, user_id, name, position, created_at, updated_at }

/-- A heading row as its JSON object. -/
def headingToJson (h : Heading) : Json :=
  .obj [("id", .str h.id), ("project_id", .str h.project_id),
    ("name", .str h.name), ("position", .num h.position),
    ("created_at", .num h.created_at)]

/-- A heading row read back from its JSON object. -/
def headingOfJson (j : Json) : Option Heading := do
  let id ← (j.getField ("id")).bind asStr
  let project_id ← (j.getField ("project_id")).bind asStr
  let name ← (j.getField ("name")).bind asStr
  let position ← (j.getField ("position")).bind asNat
  let created_at ← (j.getField ("created_at")).bind asNat
  pure { id, project_id, name, position, created_at }

theorem taskOfJson_toJson (t : Task) : taskOfJson (taskToJson t) = some t := by
  cases t
  simp [taskToJson, taskOfJson, Json.getField, lookupField, decodeOptStr_encode,
    decodeOptNat_encode, decodeOptSchedule_encode, statusOfString_toString,
    asStr, asNat]

theorem projectOfJson_toJson (p : Project) :
    projectOfJson (projectToJson p) = some p := by
  cases p
  simp [projectToJson, projectOfJson, Json.getField, lookupField,
    decodeOptStr_encode, decodeOptNat_encode, projectStatusOfString_toString,
    asStr, asNat]

theorem areaOfJson_toJson (a : Area) : areaOfJson (areaToJson a) = some a := by
  cases a
  simp [areaToJson, areaOfJson, Json.getField, lookupField, asStr, asNat]

theorem headingOfJson_toJson (h : Heading) :
    headingOfJson (headingToJson h) = some h := by
  cases h
  simp [headingToJson, headingOfJson, Json.getField, lookupField, asStr, asNat]

/-- Decode every element of a JSON array, failing if any element fails. -/
def decodeJsonList (dec : Json → Option α) : List Json → Option (List α)
  | [] => some []
  | j :: js =>
    match dec j, decodeJsonList dec js with
    | some a, some rest => some (a :: rest)
    | _, _ => none

theorem decodeJsonList_map {α : Type} {dec : Json → Option α} {enc : α → Json}
    (h : ∀ a, dec (enc a) = some a) (l : List α) :
    decodeJsonList dec (l.map enc) = some l := by
  induction l with
  | nil => rfl
  | cons a rest ih => simp [decodeJsonList, h, ih]

/-- The save effect for the tasks slot:
`localStorage.setItem(TASKS_KEY, JSON.stringify(tasks))` (page.tsx). -/
def tasksToStorage (ts : List Task) : Json := .arr (ts.map taskToJson)

/-- The load effect for the tasks slot: `JSON.parse(savedTasks)` (page.tsx). -/
def tasksOfStorage : Json → Option (List Task)
  | .arr es => decodeJsonList taskOfJson es
  | _ => none

/-- Save effect for the projects slot. -/
def projectsToStorage (ps : List Project) : Json := .arr (ps.map projectToJson)

/-- Load effect for the projects slot. -/
def projectsOfStorage : Json → Option (List Project)
  | .arr es => decodeJsonList projectOfJson es
  | _ => none

/-- Save effect for the areas slot. -/
def areasToStorage (l : List Area) : Json := .arr (l.map areaToJson)

/-- Load effect for the areas slot. -/
def areasOfStorage : Json → Option (List Area)
  | .arr es => decodeJsonList areaOfJson es
  | _ => none

/-- Save effect for the headings slot. -/
def headingsToStorage (l : List Heading) : Json := .arr (l.map headingToJson)

/-- Load effect for the headings slot. -/
def headingsOfStorage : Json → Option (List Heading)
  | .arr es => decodeJsonList headingOfJson es
  | _ => none

/-- C8: each of the four collections survives a save/load round-trip
unchanged: serializing and deserializing yields the identical list of
records, id-for-id and field-for-field. -/
theorem storage_roundtrip (ts : List Task) (ps : List Project)
    (l1 : List Area) (l2 : List Heading) :
    tasksOfStorage (tasksToStorage ts) = some ts ∧
    projectsOfStorage (projectsToStorage ps) = some ps ∧
    areasOfStorage (areasToStorage l1) = some l1 ∧
    headingsOfStorage (headingsToStorage l2) = some l2 :=
  ⟨decodeJsonList_map taskOfJson_toJson ts,
   decodeJsonList_map projectOfJson_toJson ps,
   decodeJsonList_map areaOfJson_toJson l1,
   decodeJsonList_map headingOfJson_toJson l2⟩

end Pocky
